import Mathlib

/-!
Verification development for the bg-web repository (background-removal and
compositing service).  The Python modules app/backgrounds.py,
app/image_processing.py, app/worker.py and the job-orchestration part of
app/main.py are shallowly embedded below.

Modelling conventions:
* Raster images are structures carrying a width, a height and a total pixel
  function; RGB images are represented with a constant alpha of 255, matching
  what PIL does when such an image is converted to RGBA.
* Python floats are idealised as rationals.  Python int(x) truncates toward
  zero, modelled by pyInt; Python floor division is Int division (Euclidean
  division agrees with floor division for positive divisors, the only case
  used here).
* Library raster primitives whose pixel output the repository treats as an
  opaque capability (LANCZOS and BICUBIC resampling kernels, Gaussian blur,
  font rasterisation, ellipse rasterisation) are supplied by a Lib record of
  deterministic functions; the sizes of their results are fixed structurally
  exactly as Pillow fixes them (filters, text drawing and expand=False
  rotation preserve the size, resize has the requested size).
* The directory of background image files is modelled as the sorted list of
  its (file stem, extension, decoded raster) entries; a missing or empty
  directory is the empty list.
-/

/-- Channel values of one RGBA pixel (8-bit channels in Pillow; the model
uses unbounded naturals, every operation below produces in-range values on
in-range inputs). -/
structure Pix where
  r : Nat
  g : Nat
  b : Nat
  a : Nat
deriving DecidableEq, Repr

/-- An RGBA raster: width, height and a total pixel function.  Pixels outside
the w times h rectangle are irrelevant to the embedded code paths. -/
structure Img where
  w : Nat
  h : Nat
  px : Nat → Nat → Pix

/-- A single-band (PIL mode L) raster. -/
structure GrayImg where
  w : Nat
  h : Nat
  px : Nat → Nat → Nat

/-- Python int() applied to a float: truncation toward zero. -/
def pyInt (q : ℚ) : ℤ :=
  if q < 0 then -(Int.floor (-q)) else Int.floor q

/-- Python max(0.0, min(1.0, x)) used for opacities. -/
def clamp01 (q : ℚ) : ℚ := max 0 (min 1 q)

/-- Pillow SHIFTFORDIV255 macro: (((a >> 8) + a) >> 8), a rounded division
by 255 on the ranges Pillow uses it. -/
def shiftDiv255 (a : Nat) : Nat := (a / 256 + a) / 256

/-- Pillow MULDIV255 macro, the per-channel formula of ImageChops.multiply:
rounded (a * b) / 255. -/
def mul255 (a b : Nat) : Nat := shiftDiv255 (a * b + 128)

/-- Pillow per-pixel source-over compositing (AlphaComposite.c, 8-bit path,
PRECISION_BITS = 7).  A source pixel with alpha 0 leaves the destination
pixel bit-identical (the memcpy shortcut in the C code). -/
def pixelOver (dst src : Pix) : Pix :=
  if src.a = 0 then dst
  else
    let blend := dst.a * (255 - src.a)
    let outa255 := src.a * 255 + blend
    let coef1 := src.a * 255 * 255 * 128 / outa255
    let coef2 := 255 * 128 - coef1
    let mix := fun (sc dc : Nat) => shiftDiv255 (sc * coef1 + dc * coef2 + 128 * 128) / 128
    ⟨mix src.r dst.r, mix src.g dst.g, mix src.b dst.b, shiftDiv255 (outa255 + 128)⟩

/-- Pillow Image.alpha_composite instance method with a dest offset
(Pillow allows negative dest since 9.1; the overlay is clipped to the
destination canvas).  The canvas keeps the size of the base image. -/
def alphaCompositeAt (base overlay : Img) (dest : ℤ × ℤ) : Img :=
  ⟨base.w, base.h, fun x y =>
    let rx : ℤ := (x : ℤ) - dest.1
    let ry : ℤ := (y : ℤ) - dest.2
    if 0 ≤ rx ∧ rx < (overlay.w : ℤ) ∧ 0 ≤ ry ∧ ry < (overlay.h : ℤ) then
      pixelOver (base.px x y) (overlay.px rx.toNat ry.toNat)
    else base.px x y⟩

/-- Pillow Image.paste without a mask: rectangle overwrite, clipped to the
base canvas, which keeps its size. -/
def pasteAt (base sub : Img) (pos : ℤ × ℤ) : Img :=
  ⟨base.w, base.h, fun x y =>
    let rx : ℤ := (x : ℤ) - pos.1
    let ry : ℤ := (y : ℤ) - pos.2
    if 0 ≤ rx ∧ rx < (sub.w : ℤ) ∧ 0 ≤ ry ∧ ry < (sub.h : ℤ) then
      sub.px rx.toNat ry.toNat
    else base.px x y⟩

/-- Pillow ImageDraw.rectangle with inclusive corners. -/
def drawRect (img : Img) (x0 y0 x1 y1 : ℤ) (fill : Pix) : Img :=
  ⟨img.w, img.h, fun x y =>
    if x0 ≤ (x : ℤ) ∧ (x : ℤ) ≤ x1 ∧ y0 ≤ (y : ℤ) ∧ (y : ℤ) ≤ y1 then fill
    else img.px x y⟩

/-- Pillow Image.crop: the result has exactly the size of the requested box;
pixels taken from outside the source are zero-filled. -/
def cropBox (img : Img) (left top right bottom : ℤ) : Img :=
  ⟨(right - left).toNat, (bottom - top).toNat, fun x y =>
    let sx : ℤ := left + (x : ℤ)
    let sy : ℤ := top + (y : ℤ)
    if 0 ≤ sx ∧ sx < (img.w : ℤ) ∧ 0 ≤ sy ∧ sy < (img.h : ℤ) then
      img.px sx.toNat sy.toNat
    else ⟨0, 0, 0, 0⟩⟩

/-- Pillow Image.new for a constant fill. -/
def newImg (w h : Nat) (fill : Pix) : Img := ⟨w, h, fun _ _ => fill⟩

/-- PIL convert to RGB: drop the alpha band and present an opaque image. -/
def convertRGB (i : Img) : Img :=
  ⟨i.w, i.h, fun x y => let p := i.px x y; ⟨p.r, p.g, p.b, 255⟩⟩

/-- Pillow Paste.c BLEND macro used by Image.composite: per channel,
rounded (in1 * (255 - mask) + in2 * mask) / 255 where in2 is the pasted
image (image1 of Image.composite) and in1 the background (image2). -/
def blendChan (in1 in2 m : Nat) : Nat := shiftDiv255 (in1 * (255 - m) + in2 * m + 128)

/-- Pillow Image.composite(image1, image2, mask): image1 where the mask is
255, image2 where it is 0, blended in between.  All three share one size. -/
def compositeMask (image1 image2 : Img) (mask : GrayImg) : Img :=
  ⟨image2.w, image2.h, fun x y =>
    let p1 := image1.px x y
    let p2 := image2.px x y
    let m := mask.px x y
    ⟨blendChan p2.r p1.r m, blendChan p2.g p1.g m, blendChan p2.b p1.b m,
     blendChan p2.a p1.a m⟩⟩

/-- Pointwise map on a single-band image (Image.point and Image.eval on
mode L). -/
def grayMap (g : GrayImg) (f : Nat → Nat) : GrayImg := ⟨g.w, g.h, fun x y => f (g.px x y)⟩

/-- Image.putalpha: replace the alpha band. -/
def putAlpha (i : Img) (alpha : Nat → Nat → Nat) : Img :=
  ⟨i.w, i.h, fun x y => let p := i.px x y; ⟨p.r, p.g, p.b, alpha x y⟩⟩

/-- Deterministic library raster primitives the repository calls in Pillow.
Their pixel content is opaque to the verification; the result sizes are
fixed at the call sites exactly as Pillow fixes them. -/
structure Lib where
  resizePx : Img → Nat → Nat → Nat → Nat → Pix
  rotateExpand : ℚ → Img → Img
  rotatePx : ℚ → Img → Nat → Nat → Pix
  blurPx : ℚ → Img → Nat → Nat → Pix
  grayBlurPx : ℚ → GrayImg → Nat → Nat → Nat
  textPx : Nat → Nat → Nat → (Nat → Nat → Pix) → ℤ × ℤ → String → Pix → Nat → Nat → Pix
  ellipseMask : ℤ → ℤ → ℤ → ℤ → Nat → Nat → Bool

/-- Image.resize to a requested size (LANCZOS content supplied by Lib). -/
def resizeTo (lib : Lib) (i : Img) (tw th : Nat) : Img := ⟨tw, th, lib.resizePx i tw th⟩

/-- Image.filter(GaussianBlur) preserves the size. -/
def blurImg (lib : Lib) (radius : ℚ) (i : Img) : Img := ⟨i.w, i.h, lib.blurPx radius i⟩

/-- GaussianBlur on a mode-L image. -/
def grayBlur (lib : Lib) (radius : ℚ) (g : GrayImg) : GrayImg := ⟨g.w, g.h, lib.grayBlurPx radius g⟩

/-- Image.rotate with expand=False preserves the size. -/
def rotateKeep (lib : Lib) (angle : ℚ) (i : Img) : Img := ⟨i.w, i.h, lib.rotatePx angle i⟩

/-- ImageDraw.text: mutates pixels of the layer, never its size.  The first
argument after the Lib is the font size chosen by the code ( underscore font
helper); availability of the TrueType font is part of the Lib state. -/
def drawTextAt (lib : Lib) (fontSize : Nat) (layer : Img) (pos : ℤ × ℤ) (text : String)
    (fill : Pix) : Img :=
  ⟨layer.w, layer.h, lib.textPx fontSize layer.w layer.h layer.px pos text fill⟩

/-- ImageDraw.ellipse with the given bounding box: pixels covered by the
rasteriser (supplied by Lib) are set to the fill. -/
def drawEllipse (lib : Lib) (img : Img) (x0 y0 x1 y1 : ℤ) (fill : Pix) : Img :=
  ⟨img.w, img.h, fun x y => if lib.ellipseMask x0 y0 x1 y1 x y then fill else img.px x y⟩

/-- ImageDraw.ellipse on a mode-L image. -/
def drawEllipseGray (lib : Lib) (g : GrayImg) (x0 y0 x1 y1 : ℤ) (fill : Nat) : GrayImg :=
  ⟨g.w, g.h, fun x y => if lib.ellipseMask x0 y0 x1 y1 x y then fill else g.px x y⟩

/-- Image.getbbox on the alpha band: tight bounding box of the pixels with
nonzero alpha, right and bottom exclusive; none when the band is all zero. -/
def alphaBBox (i : Img) : Option (Nat × Nat × Nat × Nat) :=
  let xs := (List.range i.w).filter fun x => (List.range i.h).any fun y => (i.px x y).a ≠ 0
  let ys := (List.range i.h).filter fun y => (List.range i.w).any fun x => (i.px x y).a ≠ 0
  match xs.head?, xs.getLast?, ys.head?, ys.getLast? with
  | some x0, some x1, some y0, some y1 => some (x0, y0, x1 + 1, y1 + 1)
  | _, _, _, _ => none

/-- Trivial instantiation of the library primitives, used to evaluate the
embedding on concrete inputs. -/
def trivLib : Lib where
  resizePx := fun _ _ _ _ _ => ⟨0, 0, 0, 0⟩
  rotateExpand := fun _ i => i
  rotatePx := fun _ i => i.px
  blurPx := fun _ i => i.px
  grayBlurPx := fun _ g => g.px
  textPx := fun _ _ _ base _ _ _ => base
  ellipseMask := fun _ _ _ _ _ _ => false

/-- BackgroundDef of app/backgrounds.py. -/
structure BackgroundDef where
  id : String
  name : String
  description : String
deriving DecidableEq, Repr

/-- BUILTIN_BACKGROUNDS of app/backgrounds.py. -/
def BUILTIN_BACKGROUNDS : List BackgroundDef :=
  [⟨"studio_neutral", "Neutral studio", "Soft studio lighting with neutral floor."⟩,
   ⟨"outdoor_lot", "Outdoor lot", "Simple sky + asphalt lot gradient."⟩,
   ⟨"branded_wall", "Branded wall", "Clean wall with subtle brand pattern."⟩,
   ⟨"gradient_silver", "Silver gradient", "Modern silver/gray gradient background."⟩]

/-- Python str.lower, written over the character list so that it reduces
definitionally (the repository ids and file stems are ASCII). -/
def lowerStr (s : String) : String := String.mk (s.data.map Char.toLower)

/-- One step of the character loop of the slugify helper of backgrounds.py:
the accumulator carries the emitted characters and the prev_dash flag.
Python str.isalnum is modelled by Char.isAlphanum (the repository ids and
file stems are ASCII). -/
def slugStep (acc : List Char × Bool) (ch : Char) : List Char × Bool :=
  if ch.isAlphanum then (acc.1 ++ [ch], false)
  else if acc.2 then acc else (acc.1 ++ ['-'], true)

/-- Python strip of dash characters from both ends. -/
def stripDash (l : List Char) : List Char :=
  ((l.dropWhile (fun c => c = '-')).reverse.dropWhile (fun c => c = '-')).reverse

/-- The slugify helper of backgrounds.py. -/
def slugify (s : String) : String :=
  let core := ((lowerStr s).data.foldl slugStep ([], false)).1
  let t := stripDash core
  if t.isEmpty then "background" else String.mk t

/-- Python p[:1].upper() + p[1:]. -/
def capitalize1 (p : String) : String :=
  match p.data with
  | [] => ""
  | c :: cs => String.mk (c.toUpper :: cs)

/-- The human-name helper of backgrounds.py (display names only; no claim
depends on it).  Underscores and dashes become spaces, words are
capitalised. -/
def human_name_from_filename (stem : String) : String :=
  let s := String.mk (stem.data.map fun c => if c = '_' ∨ c = '-' then ' ' else c)
  let parts := (s.splitOn " ").filter (fun p => p ≠ "")
  if parts.isEmpty then "Background" else String.intercalate " " (parts.map capitalize1)

/-- One file of the images directory: stem, extension (with the dot) and the
decoded raster. -/
structure BgFile where
  stem : String
  ext : String
  content : Img

/-- Extension filter of file_backgrounds (the ALLOWED_EXTS set). -/
def isEligible (f : BgFile) : Bool :=
  lowerStr f.ext = ".jpg" ∨ lowerStr f.ext = ".jpeg" ∨ lowerStr f.ext = ".png" ∨ lowerStr f.ext = ".webp"

/-- The while loop of file_backgrounds that suffixes -2, -3, ... until the id
is unused.  Fuel seen.length + 1 always suffices: the candidates are pairwise
distinct strings, so at least one of the first seen.length + 1 is free. -/
def freshIdAux (base : String) (seen : List String) : Nat → Nat → String
  | 0, i => base ++ "-" ++ toString i
  | fuel + 1, i =>
    let cand := base ++ "-" ++ toString i
    if cand ∈ seen then freshIdAux base seen fuel (i + 1) else cand

/-- The id-deduplication of file_backgrounds: the slug itself when unused,
otherwise the first free suffixed candidate. -/
def fileId (base : String) (seen : List String) : String :=
  if base ∈ seen then freshIdAux base seen (seen.length + 1) 2 else base

/-- Loop body of file_backgrounds.  The seen set of the Python code is
exactly the set of ids of the items built so far. -/
def fbStep (items : List BackgroundDef) (p : BgFile) : List BackgroundDef :=
  if isEligible p then
    items ++ [⟨fileId (slugify p.stem) (items.map BackgroundDef.id),
               human_name_from_filename p.stem, ""⟩]
  else items

/-- file_backgrounds of backgrounds.py over the sorted directory listing
(a missing or empty directory is the empty list). -/
def file_backgrounds (files : List BgFile) : List BackgroundDef := files.foldl fbStep []

/-- list_backgrounds of backgrounds.py: file catalog when non-empty, else
the built-ins. -/
def list_backgrounds (files : List BgFile) : List BackgroundDef :=
  let fb := file_backgrounds files
  if fb = [] then BUILTIN_BACKGROUNDS else fb

/-- Python exceptions raised by the generator: ValueError for a bad target
size, ValueError for a degenerate source image, KeyError (carrying the id)
for an unknown background.  The spec names the latter two taxonomy entries
InvalidSizeError and UnknownBackgroundError. -/
inductive PyErr where
  | invalidSize
  | invalidSourceSize
  | unknownBackground (bg_id : String)
deriving DecidableEq, Repr

/-- The open-file-background helper: among eligible files whose slugified
stem equals the id, the sorted-first one is opened and converted to RGB;
no match raises KeyError.  The files list is sorted, so the head of the
filtered list is the sorted-first match. -/
def open_file_background (files : List BgFile) (bg_id : String) : Except PyErr Img :=
  match files.filter (fun p => isEligible p && decide (slugify p.stem = bg_id)) with
  | [] => .error (.unknownBackground bg_id)
  | p :: _ => .ok (convertRGB p.content)

/-- The cover-resize helper of backgrounds.py: scale by the larger of the
two ratios, then center-crop the target window.  Python floor division is
Int division here (the divisor 2 is positive). -/
def cover_resize (lib : Lib) (img : Img) (tw th : ℤ) : Except PyErr Img :=
  if tw ≤ 0 ∨ th ≤ 0 then .error .invalidSize
  else if img.w = 0 ∨ img.h = 0 then .error .invalidSourceSize
  else
    let s : ℚ := max ((tw : ℚ) / (img.w : ℚ)) ((th : ℚ) / (img.h : ℚ))
    let nw : ℤ := max 1 (pyInt ((img.w : ℚ) * s))
    let nh : ℤ := max 1 (pyInt ((img.h : ℚ) * s))
    let resized := resizeTo lib img nw.toNat nh.toNat
    let left : ℤ := (nw - tw) / 2
    let top : ℤ := (nh - th) / 2
    .ok (cropBox resized left top (left + tw) (top + th))

/-- RGB endpoint of a procedural gradient. -/
structure RGB3 where
  r : Nat
  g : Nat
  b : Nat
deriving DecidableEq, Repr

/-- Scanline colour of the linear-gradient helper: t = y / max(h - 1, 1),
channels linearly interpolated and truncated by int(). -/
def gradColor (top bottom : RGB3) (h y : Nat) : Pix :=
  let t : ℚ := (y : ℚ) / ((max (h - 1) 1 : ℕ) : ℚ)
  ⟨(pyInt ((top.r : ℚ) * (1 - t) + (bottom.r : ℚ) * t)).toNat,
   (pyInt ((top.g : ℚ) * (1 - t) + (bottom.g : ℚ) * t)).toNat,
   (pyInt ((top.b : ℚ) * (1 - t) + (bottom.b : ℚ) * t)).toNat, 255⟩

/-- The linear-gradient helper of backgrounds.py: every scanline y of the
canvas carries the interpolated colour (the draw loop covers each row). -/
def linear_gradient (w h : Nat) (top bottom : RGB3) : Img :=
  ⟨w, h, fun _ y => gradColor top bottom h y⟩

/-- Number of elements of Python range(a, b, step) for positive step. -/
def pyRangeLen (a b step : ℤ) : Nat := (((b - a) + step - 1) / step).toNat

/-- Python range(a, b, step) for positive step. -/
def pyRange (a b step : ℤ) : List ℤ := (List.range (pyRangeLen a b step)).map fun k => a + k * step

/-- The radial-glow helper of backgrounds.py: an oversized filled ellipse on
a black mode-L canvas, Gaussian-blurred.  The inner and outer arguments are
accepted and ignored, exactly as in the source. -/
def radial_glow (lib : Lib) (w h : Nat) (center : ℤ × ℤ) (inner outer : Nat) : GrayImg :=
  let _ := inner
  let _ := outer
  let r : ℤ := (max w h : ℕ)
  let g : GrayImg := ⟨w, h, fun _ _ => 0⟩
  let g := drawEllipseGray lib g (center.1 - r) (center.2 - r) (center.1 + r) (center.2 + r) 255
  grayBlur lib (((max w h : ℕ) : ℚ) / 6) g

/-- The studio_neutral recipe of generate_background. -/
def studio_neutral (lib : Lib) (w h : Nat) : Img :=
  let sky := linear_gradient w h ⟨245, 245, 246⟩ ⟨220, 220, 222⟩
  let floor_h := (pyInt ((h : ℚ) * (22 / 100))).toNat
  let floor := linear_gradient w floor_h ⟨210, 210, 212⟩ ⟨175, 175, 178⟩
  let img := pasteAt sky floor (0, (h : ℤ) - (floor_h : ℤ))
  let vign := radial_glow lib w h (((w / 2 : ℕ) : ℤ), pyInt ((h : ℚ) * (35 / 100))) 240 0
  let vign := grayMap vign fun p => (pyInt ((p : ℚ) * (18 / 100))).toNat
  compositeMask (newImg w h ⟨0, 0, 0, 255⟩) img (grayMap vign fun p => 255 - p)

/-- The outdoor_lot recipe of generate_background. -/
def outdoor_lot (lib : Lib) (w h : Nat) : Img :=
  let sky_h := (pyInt ((h : ℚ) * (58 / 100))).toNat
  let sky := linear_gradient w sky_h ⟨190, 215, 235⟩ ⟨230, 240, 248⟩
  let ground := linear_gradient w (h - sky_h) ⟨90, 92, 96⟩ ⟨55, 56, 60⟩
  let img := pasteAt (newImg w h ⟨0, 0, 0, 255⟩) sky (0, 0)
  let img := pasteAt img ground (0, (sky_h : ℤ))
  let glow := newImg w h ⟨255, 255, 255, 0⟩
  let glow := drawRect glow 0 ((sky_h : ℤ) - 30) (w : ℤ) ((sky_h : ℤ) + 40) ⟨255, 255, 255, 24⟩
  let glow := blurImg lib 18 glow
  convertRGB (alphaCompositeAt img glow (0, 0))

/-- The branded_wall recipe of generate_background: tiled brand text over a
flat gradient, rotated by -18 degrees without expansion and slightly
blurred. -/
def branded_wall (lib : Lib) (w h : Nat) : Img :=
  let base := linear_gradient w h ⟨244, 244, 245⟩ ⟨228, 228, 230⟩
  let overlay := newImg w h ⟨0, 0, 0, 0⟩
  let step : ℤ := max 140 ((min w h : ℕ) / 6 : ℕ)
  let fsize := max 16 (step / 6).toNat
  let overlay := (pyRange (-step) ((h : ℤ) + step) step).foldl (fun acc yy =>
    (pyRange (-step) ((w : ℤ) + step) step).foldl (fun acc2 xx =>
      drawTextAt lib fsize acc2 (xx, yy) "aucto.ch" ⟨20, 20, 22, 18⟩) acc) overlay
  let overlay := rotateKeep lib (-18) overlay
  let overlay := blurImg lib (6 / 10) overlay
  convertRGB (alphaCompositeAt base overlay (0, 0))

/-- generate_background of backgrounds.py.  The size guard runs first; a
non-empty file catalog containing the id routes to the file branch; the
four built-in recipes are then matched unconditionally; everything else
raises KeyError. -/
def generate_background (lib : Lib) (files : List BgFile) (bg_id : String) (size : ℤ × ℤ) :
    Except PyErr Img :=
  if size.1 ≤ 0 ∨ size.2 ≤ 0 then .error .invalidSize
  else
    let fb := file_backgrounds files
    if fb ≠ [] ∧ bg_id ∈ fb.map BackgroundDef.id then
      match open_file_background files bg_id with
      | .error e => .error e
      | .ok src => cover_resize lib src size.1 size.2
    else if bg_id = "studio_neutral" then .ok (studio_neutral lib size.1.toNat size.2.toNat)
    else if bg_id = "outdoor_lot" then .ok (outdoor_lot lib size.1.toNat size.2.toNat)
    else if bg_id = "branded_wall" then .ok (branded_wall lib size.1.toNat size.2.toNat)
    else if bg_id = "gradient_silver" then
      .ok (linear_gradient size.1.toNat size.2.toNat ⟨250, 250, 252⟩ ⟨196, 198, 202⟩)
    else .error (.unknownBackground bg_id)

/-- Process environment of the generator: the deterministic library
primitives, the directory snapshot, and a randomness stream.  The stream is
never consulted by any embedded function; claim C9 is the statement that
the output does not depend on it. -/
structure GenEnv where
  lib : Lib
  files : List BgFile
  rng : Nat → Nat

/-- generate_background as run in a process environment. -/
def generate_background_env (e : GenEnv) (bg_id : String) (size : ℤ × ℤ) : Except PyErr Img :=
  generate_background e.lib e.files bg_id size

/-- apply_soft_shadow of image_processing.py: a blurred black ellipse under
the visible (alpha-tight) bounding box of the car, composited onto the
background before the car is pasted.  The background keeps its size; an
empty alpha band draws nothing. -/
def apply_soft_shadow (lib : Lib) (bg car : Img) (pos : ℤ × ℤ) (opacity : ℚ) : Img :=
  match alphaBBox car with
  | none => bg
  | some (x0, y0, x1, y1) =>
    let car_w := x1 - x0
    let car_h := y1 - y0
    let shadow := newImg bg.w bg.h ⟨0, 0, 0, 0⟩
    let ell_w : ℤ := pyInt ((car_w : ℚ) * (72 / 100))
    let ell_h : ℤ := max 12 (pyInt ((car_h : ℚ) * (10 / 100)))
    let cx : ℤ := pos.1 + (x0 : ℤ) + ((car_w / 2 : ℕ) : ℤ)
    let cy : ℤ := pos.2 + (y0 : ℤ) + pyInt ((car_h : ℚ) * (92 / 100))
    let left := cx - ell_w / 2
    let top := cy - ell_h / 2
    let right := cx + ell_w / 2
    let bottom := cy + ell_h / 2
    let a := (pyInt (255 * clamp01 opacity)).toNat
    let shadow := drawEllipse lib shadow left top right bottom ⟨0, 0, 0, a⟩
    let shadow := blurImg lib (max 8 ((ell_h : ℚ) * (65 / 100))) shadow
    alphaCompositeAt bg shadow (0, 0)

/-- The watermark-layer helper of image_processing.py: brand text tiled on a
transparent layer with a step derived from the font size, a second slightly
offset lower-alpha pass per tile, then a rotation without expansion when the
angle is nonzero. -/
def make_watermark_layer (lib : Lib) (w h : Nat) (text : String) (angle : ℚ) (opacity : ℚ) : Img :=
  let base := max w h
  let fontSize := max 14 (pyInt ((base : ℚ) * (35 / 1000))).toNat
  let step : ℤ := pyInt ((fontSize : ℚ) * (42 / 10))
  let fillA := (pyInt (255 * clamp01 opacity)).toNat
  let fill : Pix := ⟨29, 78, 216, fillA⟩
  let fill2 : Pix := ⟨29, 78, 216, (pyInt ((fillA : ℚ) * (65 / 100))).toNat⟩
  let layer := newImg w h ⟨0, 0, 0, 0⟩
  let layer := (pyRange (-step) ((h : ℤ) + step) step).foldl (fun acc yy =>
    (pyRange (-step) ((w : ℤ) + step) step).foldl (fun acc2 xx =>
      drawTextAt lib fontSize (drawTextAt lib fontSize acc2 (xx, yy) text fill)
        (xx + 1, yy + 1) text fill2) acc) layer
  if angle ≠ 0 then rotateKeep lib angle layer else layer

/-- apply_watermark_on_car of image_processing.py: the watermark layer has
its alpha multiplied (ImageChops.multiply) with the car alpha band before
being composited, so the mark is clipped to the car silhouette.  An
all-transparent car is returned unchanged. -/
def apply_watermark_on_car (lib : Lib) (car : Img) (angle_deg : ℚ) (text : String) : Img :=
  match alphaBBox car with
  | none => car
  | some _ =>
    let wm := make_watermark_layer lib car.w car.h text angle_deg (16 / 100)
    let wmClipped := putAlpha wm fun x y => mul255 (wm.px x y).a (car.px x y).a
    alphaCompositeAt car wmClipped (0, 0)

/-- RenderParams of image_processing.py. -/
structure RenderParams where
  rotate_deg : ℚ := 0
  scale : ℚ := 1
  offset_x : ℚ := 0
  offset_y : ℚ := 0
  shadow : Bool := true
  snap_center : Bool := false

/-- The scale clamp of render_composite: max(0.5, min(2.0, scale)). -/
def clampScale (s : ℚ) : ℚ := max (1 / 2) (min 2 s)

/-- The subject-layer pipeline of render_composite: optional watermark,
optional resize by the clamped scale (epsilon 1e-4), optional rotation with
expansion (epsilon 1e-3).  The resize target is computed from the cutout
native size, exactly as in the source. -/
def transformedCar (lib : Lib) (cutout : Img) (params : RenderParams) (paid : Bool)
    (watermark_text : String) : Img :=
  let car := if paid then cutout
    else apply_watermark_on_car lib cutout params.rotate_deg watermark_text
  let scale := clampScale params.scale
  let car := if |scale - 1| > 1 / 10000 then
      resizeTo lib car (pyInt ((cutout.w : ℚ) * scale)).toNat (pyInt ((cutout.h : ℚ) * scale)).toNat
    else car
  if |params.rotate_deg| > 1 / 1000 then lib.rotateExpand params.rotate_deg car else car

/-- The placement computation of render_composite: offsets are zero when
snap_center is set, and the top-left corner is int((canvas - layer) / 2 +
offset) per axis — Python int(), truncation toward zero. -/
def renderDest (cutout car : Img) (params : RenderParams) : ℤ × ℤ :=
  let ox : ℚ := if params.snap_center then 0 else params.offset_x
  let oy : ℚ := if params.snap_center then 0 else params.offset_y
  (pyInt (((cutout.w : ℚ) - (car.w : ℚ)) / 2 + ox),
   pyInt (((cutout.h : ℚ) - (car.h : ℚ)) / 2 + oy))

/-- render_composite of image_processing.py.  The canvas is the cutout
native size; the background is resized to it when it differs and converted
to RGBA; the transformed subject is composited at the computed placement,
after the optional soft shadow. -/
def render_composite (lib : Lib) (cutout_rgba background_rgb : Img) (params : RenderParams)
    (paid : Bool) (watermark_text : String) : Img :=
  let w := cutout_rgba.w
  let h := cutout_rgba.h
  let bgSized := if background_rgb.w = w ∧ background_rgb.h = h then background_rgb
    else resizeTo lib background_rgb w h
  let bg := convertRGB bgSized
  let car := transformedCar lib cutout_rgba params paid watermark_text
  let dest := renderDest cutout_rgba car params
  let bg := if params.shadow then apply_soft_shadow lib bg car dest (26 / 100) else bg
  alphaCompositeAt bg car dest

/-- Byte strings crossing the worker boundary. -/
abbrev Bytes := List Nat

/-- Fallible collaborators of remove_background_to_file in worker.py: file
reads and writes, the rembg segmentation call, directory creation, PNG
decoding, and the lazy session acquisition used when no session is passed
in.  An error value is the str() of the raised exception; tb is the bounded
traceback suffix appended to the failure detail. -/
structure WorkerEnv where
  readOriginal : Except String Bytes
  removeBg : Bytes → Except String Bytes
  ensureDir : Except String Unit
  writeCutout : Bytes → Except String Unit
  decodeSize : Bytes → Except String (Nat × Nat)
  acquireSession : Except String Unit
  tb : String

/-- Observable outcome of one remove_background_to_file call: the bytes
durably written to the cutout path, and the callback invocations in order.
The callbacks themselves are assumed not to raise (they are recorded, not
run). -/
structure WorkerOutcome where
  written : Option Bytes
  successCalls : List (Nat × Nat)
  errorCalls : List String
deriving DecidableEq, Repr

/-- Failure detail of worker.py: str(e) plus the bounded traceback. -/
def workerDetail (env : WorkerEnv) (e : String) : String := e ++ "\n" ++ env.tb

/-- One statement of the try block: a raising step either routes to the
except clause (the handler) or continues with the remaining statements. -/
def tryStep {a : Type} (x : Except String a) (handler : String → WorkerOutcome)
    (next : a → WorkerOutcome) : WorkerOutcome :=
  match x with
  | .error e => handler e
  | .ok v => next v

/-- The session value used by the try block: the one passed in, else the
lazily acquired one. -/
def sessionOf (env : WorkerEnv) (session : Option Unit) : Except String Unit :=
  match session with
  | some _ => .ok ()
  | none => env.acquireSession

/-- remove_background_to_file of worker.py.  Every failing step of the try
block routes to the single except clause, which invokes the failure
callback once; the success path invokes the success callback once with the
decoded width and height.  The function itself never fails: its result type
is total. -/
def remove_background_to_file (env : WorkerEnv) (session : Option Unit) : WorkerOutcome :=
  tryStep (sessionOf env session) (fun e => ⟨none, [], [workerDetail env e]⟩) fun _ =>
  tryStep env.readOriginal (fun e => ⟨none, [], [workerDetail env e]⟩) fun raw =>
  tryStep (env.removeBg raw) (fun e => ⟨none, [], [workerDetail env e]⟩) fun out =>
  tryStep env.ensureDir (fun e => ⟨none, [], [workerDetail env e]⟩) fun _ =>
  tryStep (env.writeCutout out) (fun e => ⟨none, [], [workerDetail env e]⟩) fun _ =>
  tryStep (env.decodeSize out) (fun e => ⟨some out, [], [workerDetail env e]⟩) fun wh =>
  ⟨some out, [wh], []⟩

/-- Image status values of the jobs pipeline (db column status). -/
inductive ImgStatus where
  | queued
  | processing
  | ready
  | error
deriving DecidableEq, Repr

/-- Forward order of the lifecycle: queued before processing before the two
terminal states. -/
def statusRank : ImgStatus → Nat
  | .queued => 0
  | .processing => 1
  | .ready => 2
  | .error => 2

/-- Terminal statuses. -/
def isTerminal (s : ImgStatus) : Bool := s = ImgStatus.ready ∨ s = ImgStatus.error

/-- Serialized status writes applied to one image row, in program order:
create_job inserts the row as queued and flips it to processing before
submitting exactly one segmentation task; the worker then invokes its
callbacks, each of which commits one status write (ready per success call,
error per failure call).  Each list element is one committed transaction. -/
def imageStatusTrace (env : WorkerEnv) (session : Option Unit) : List ImgStatus :=
  let r := remove_background_to_file env session
  [ImgStatus.queued, ImgStatus.processing]
    ++ r.successCalls.map (fun _ => ImgStatus.ready)
    ++ r.errorCalls.map (fun _ => ImgStatus.error)

/-- Status observed by a poller after the first k writes committed. -/
def pollStatus (env : WorkerEnv) (session : Option Unit) (k : Nat) : Option ImgStatus :=
  ((imageStatusTrace env session).take k).getLast?

/-- Ids of the built-in catalog. -/
def builtinIds : List String := BUILTIN_BACKGROUNDS.map BackgroundDef.id

/-- Ids of the file catalog. -/
def fbIds (files : List BgFile) : List String := (file_backgrounds files).map BackgroundDef.id

/-- Ids the generator actually accepts for a directory snapshot: slugs of
eligible files, plus the four built-in ids, which the code matches
unconditionally after the file branch. -/
def acceptedId (files : List BgFile) (bg_id : String) : Prop :=
  (∃ f ∈ files, isEligible f = true ∧ slugify f.stem = bg_id) ∨ bg_id ∈ builtinIds

/-- Directory snapshot with one eligible file named wall.jpg. -/
def cexFilesWall : List BgFile := [⟨"wall", ".jpg", newImg 1 1 ⟨0, 0, 0, 255⟩⟩]

/-- Directory snapshot with two eligible files whose stems share the slug
wall, so the catalog lists the de-duplicated id wall-2. -/
def cexFilesDup : List BgFile :=
  [⟨"wall", ".jpg", newImg 1 1 ⟨0, 0, 0, 255⟩⟩, ⟨"wall", ".png", newImg 1 1 ⟨0, 0, 0, 255⟩⟩]

/-- A fully opaque 100 by 100 cutout. -/
def cutout100 : Img := newImg 100 100 ⟨0, 0, 0, 255⟩

/-- Snap-to-center render parameters requesting scale 1.99. -/
def snapParams199 : RenderParams :=
  { rotate_deg := 0, scale := 199 / 100, offset_x := 0, offset_y := 0,
    shadow := false, snap_center := true }

/-- A 50 by 50 opaque background raster. -/
def bg50 : Img := newImg 50 50 ⟨0, 0, 0, 255⟩

/-- A 2 by 1 cutout whose right pixel is fully transparent. -/
def carT : Img := ⟨2, 1, fun x _ => if x = 0 then ⟨1, 2, 3, 4⟩ else ⟨9, 9, 9, 0⟩⟩

/-- A worker environment in which every collaborator succeeds. -/
def envOK : WorkerEnv :=
  { readOriginal := .ok [7], removeBg := fun _ => .ok [1, 2], ensureDir := .ok (),
    writeCutout := fun _ => .ok (), decodeSize := fun _ => .ok (8, 6),
    acquireSession := .ok (), tb := "tb" }

lemma slugStep_chars :
    ∀ (l : List Char) (acc : List Char × Bool),
      (∀ c ∈ acc.1, c.isAlphanum = true ∨ c = '-') →
      ∀ c ∈ (l.foldl slugStep acc).1, c.isAlphanum = true ∨ c = '-'
  | [], _, hacc => hacc
  | ch :: t, acc, hacc => by
    rw [List.foldl_cons]
    refine slugStep_chars t _ ?_
    intro c hc
    unfold slugStep at hc
    by_cases ha : ch.isAlphanum = true
    · rw [if_pos ha] at hc
      rcases List.mem_append.1 hc with h | h
      · exact hacc c h
      · rw [List.mem_singleton.1 h]; exact Or.inl ha
    · rw [if_neg ha] at hc
      by_cases hp : acc.2 = true
      · rw [if_pos hp] at hc; exact hacc c hc
      · rw [if_neg hp] at hc
        rcases List.mem_append.1 hc with h | h
        · exact hacc c h
        · exact Or.inr (List.mem_singleton.1 h)

lemma stripDash_subset (l : List Char) : ∀ c ∈ stripDash l, c ∈ l := by
  intro c hc
  unfold stripDash at hc
  rw [List.mem_reverse] at hc
  have h1 := (List.dropWhile_sublist _).subset hc
  rw [List.mem_reverse] at h1
  exact (List.dropWhile_sublist _).subset h1

lemma slugify_chars (s : String) : ∀ c ∈ (slugify s).data, c.isAlphanum = true ∨ c = '-' := by
  intro c hc
  unfold slugify at hc
  by_cases he : (stripDash (((lowerStr s).data.foldl slugStep ([], false)).1)).isEmpty = true
  · rw [if_pos he] at hc
    have hbg : ∀ x ∈ ("background" : String).data, x.isAlphanum = true ∨ x = '-' := by decide
    exact hbg c hc
  · rw [if_neg he] at hc
    have hc2 : c ∈ stripDash (((lowerStr s).data.foldl slugStep ([], false)).1) := hc
    have hc3 := stripDash_subset _ c hc2
    exact slugStep_chars _ _ (by intro x hx; exact absurd hx (List.not_mem_nil x)) c hc3

lemma slugify_no_underscore (s : String) : '_' ∉ (slugify s).data := by
  intro h
  rcases slugify_chars s '_' h with h1 | h1
  · exact absurd h1 (by decide)
  · exact absurd h1 (by decide)

lemma digitChar_ne_underscore (m : Nat) : Nat.digitChar m ≠ '_' := by
  rcases Nat.lt_or_ge m 16 with h | h
  · interval_cases m <;> decide
  · have hne : ∀ k : Nat, k ≤ 15 → m ≠ k := by omega
    have h0 : Nat.digitChar m = '*' := by
      unfold Nat.digitChar
      rw [if_neg (hne 0 (by norm_num)), if_neg (hne 1 (by norm_num)),
          if_neg (hne 2 (by norm_num)), if_neg (hne 3 (by norm_num)),
          if_neg (hne 4 (by norm_num)), if_neg (hne 5 (by norm_num)),
          if_neg (hne 6 (by norm_num)), if_neg (hne 7 (by norm_num)),
          if_neg (hne 8 (by norm_num)), if_neg (hne 9 (by norm_num)),
          if_neg (hne 10 (by norm_num)), if_neg (hne 11 (by norm_num)),
          if_neg (hne 12 (by norm_num)), if_neg (hne 13 (by norm_num)),
          if_neg (hne 14 (by norm_num)), if_neg (hne 15 (by norm_num))]
    rw [h0]
    decide

lemma toDigitsCore_no_underscore :
    ∀ (fuel n : Nat) (ds : List Char), '_' ∉ ds → '_' ∉ Nat.toDigitsCore 10 fuel n ds
  | 0, _, _, h => h
  | fuel + 1, n, ds, h => by
    rw [Nat.toDigitsCore]
    have hd : '_' ∉ Nat.digitChar (n % 10) :: ds := by
      intro hc
      rcases List.mem_cons.1 hc with h1 | h1
      · exact digitChar_ne_underscore _ h1.symm
      · exact h h1
    split
    · exact hd
    · exact toDigitsCore_no_underscore fuel (n / 10) _ hd

lemma repr_no_underscore (n : Nat) : '_' ∉ (Nat.repr n).data := by
  show '_' ∉ Nat.toDigitsCore 10 (n + 1) n []
  exact toDigitsCore_no_underscore _ _ _ (List.not_mem_nil _)

lemma cand_no_underscore (base : String) (i : Nat) (hb : '_' ∉ base.data) :
    '_' ∉ (base ++ "-" ++ toString i).data := by
  intro hc
  rw [String.data_append, String.data_append] at hc
  rcases List.mem_append.1 hc with h | h
  · rcases List.mem_append.1 h with h1 | h1
    · exact hb h1
    · exact absurd h1 (by decide)
  · exact repr_no_underscore i h

lemma freshIdAux_no_underscore (base : String) (seen : List String) (hb : '_' ∉ base.data) :
    ∀ (fuel i : Nat), '_' ∉ (freshIdAux base seen fuel i).data
  | 0, i => cand_no_underscore base i hb
  | fuel + 1, i => by
    rw [freshIdAux]
    split
    · exact freshIdAux_no_underscore base seen hb fuel (i + 1)
    · exact cand_no_underscore base i hb

lemma fileId_no_underscore (base : String) (seen : List String) (hb : '_' ∉ base.data) :
    '_' ∉ (fileId base seen).data := by
  unfold fileId
  split
  · exact freshIdAux_no_underscore base seen hb _ _
  · exact hb

lemma fbStep_ids_mono (init : List BackgroundDef) (p : BgFile) (x : String)
    (hx : x ∈ init.map BackgroundDef.id) : x ∈ (fbStep init p).map BackgroundDef.id := by
  unfold fbStep
  split
  · rw [List.map_append]; exact List.mem_append_left _ hx
  · exact hx

lemma foldl_fbStep_ids_mono :
    ∀ (l : List BgFile) (init : List BackgroundDef) (x : String),
      x ∈ init.map BackgroundDef.id → x ∈ (l.foldl fbStep init).map BackgroundDef.id
  | [], _, _, hx => hx
  | p :: t, init, x, hx => by
    rw [List.foldl_cons]
    exact foldl_fbStep_ids_mono t _ x (fbStep_ids_mono init p x hx)

lemma foldl_fbStep_slug_mem :
    ∀ (l : List BgFile) (init : List BackgroundDef) (f : BgFile),
      f ∈ l → isEligible f = true →
      slugify f.stem ∈ (l.foldl fbStep init).map BackgroundDef.id
  | [], _, f, hf, _ => absurd hf (List.not_mem_nil f)
  | p :: t, init, f, hf, he => by
    rw [List.foldl_cons]
    rcases List.mem_cons.1 hf with heq | hf2
    · subst heq
      apply foldl_fbStep_ids_mono
      unfold fbStep
      rw [if_pos he, List.map_append]
      by_cases hb : slugify f.stem ∈ init.map BackgroundDef.id
      · exact List.mem_append_left _ hb
      · apply List.mem_append_right
        have hfree : fileId (slugify f.stem) (init.map BackgroundDef.id) = slugify f.stem := by
          unfold fileId
          rw [if_neg hb]
        simp [hfree]
    · exact foldl_fbStep_slug_mem t _ f hf2 he

lemma foldl_fbStep_no_underscore :
    ∀ (l : List BgFile) (init : List BackgroundDef),
      (∀ x ∈ init.map BackgroundDef.id, '_' ∉ x.data) →
      ∀ x ∈ (l.foldl fbStep init).map BackgroundDef.id, '_' ∉ x.data
  | [], _, hinit => hinit
  | p :: t, init, hinit => by
    rw [List.foldl_cons]
    apply foldl_fbStep_no_underscore t
    intro x hx
    unfold fbStep at hx
    split at hx
    · rw [List.map_append] at hx
      rcases List.mem_append.1 hx with hmem | hmem
      · exact hinit x hmem
      · have hxval : x = fileId (slugify p.stem) (init.map BackgroundDef.id) := by
          simpa using hmem
        rw [hxval]
        exact fileId_no_underscore _ _ (slugify_no_underscore _)
    · exact hinit x hx

lemma builtin_has_underscore (b : String) (hb : b ∈ builtinIds) : '_' ∈ b.data := by
  have hids : builtinIds =
      ["studio_neutral", "outdoor_lot", "branded_wall", "gradient_silver"] := by decide
  rw [hids] at hb
  rcases List.mem_cons.1 hb with h | h
  · rw [h]; decide
  rcases List.mem_cons.1 h with h | h
  · rw [h]; decide
  rcases List.mem_cons.1 h with h | h
  · rw [h]; decide
  rcases List.mem_cons.1 h with h | h
  · rw [h]; decide
  · exact absurd h (List.not_mem_nil b)

lemma builtin_not_fbId (files : List BgFile) (b : String) (hb : b ∈ builtinIds) :
    b ∉ fbIds files := by
  intro hmem
  have hnu := foldl_fbStep_no_underscore files []
    (by intro x hx; exact absurd hx (List.not_mem_nil x)) b hmem
  exact hnu (builtin_has_underscore b hb)

lemma open_file_cases (files : List BgFile) (id : String) :
    (open_file_background files id = .error (.unknownBackground id) ∧
      ∀ p ∈ files, ¬(isEligible p = true ∧ slugify p.stem = id)) ∨
    (∃ p ∈ files, isEligible p = true ∧ slugify p.stem = id ∧
      open_file_background files id = .ok (convertRGB p.content)) := by
  unfold open_file_background
  cases hfl : files.filter (fun p => isEligible p && decide (slugify p.stem = id)) with
  | nil =>
    left
    refine ⟨rfl, ?_⟩
    intro p hp hand
    have hmem : p ∈ files.filter (fun p => isEligible p && decide (slugify p.stem = id)) := by
      rw [List.mem_filter]
      exact ⟨hp, by simp [hand.1, hand.2]⟩
    rw [hfl] at hmem
    exact absurd hmem (List.not_mem_nil p)
  | cons q t =>
    right
    have hq : q ∈ files.filter (fun p => isEligible p && decide (slugify p.stem = id)) := by
      rw [hfl]
      exact List.mem_cons_self q t
    rw [List.mem_filter] at hq
    have hps : isEligible q = true ∧ slugify q.stem = id := by
      have := hq.2
      simpa using this
    exact ⟨q, hq.1, hps.1, hps.2, rfl⟩

lemma cover_resize_ok (lib : Lib) (img : Img) (tw th : ℤ) (hw : 0 < tw) (hh : 0 < th)
    (hiw : img.w ≠ 0) (hih : img.h ≠ 0) :
    ∃ out, cover_resize lib img tw th = .ok out ∧ out.w = tw.toNat ∧ out.h = th.toNat := by
  have h1 : ¬(tw ≤ 0 ∨ th ≤ 0) := by omega
  have h2 : ¬(img.w = 0 ∨ img.h = 0) := by tauto
  unfold cover_resize
  rw [if_neg h1, if_neg h2]
  refine ⟨_, rfl, ?_, ?_⟩
  · show (_ + tw - _).toNat = tw.toNat
    omega
  · show (_ + th - _).toNat = th.toNat
    omega

lemma fbIds_of_slug (files : List BgFile) (f : BgFile) (hf : f ∈ files)
    (he : isEligible f = true) : slugify f.stem ∈ fbIds files :=
  foldl_fbStep_slug_mem files [] f hf he

lemma generate_characterization (lib : Lib) (files : List BgFile) (id : String) (w h : ℤ)
    (hw : 0 < w) (hh : 0 < h)
    (hpos : ∀ f ∈ files, isEligible f = true → 0 < f.content.w ∧ 0 < f.content.h) :
    (acceptedId files id → ∃ img, generate_background lib files id (w, h) = .ok img ∧
        img.w = w.toNat ∧ img.h = h.toNat) ∧
    (¬ acceptedId files id →
        generate_background lib files id (w, h) = .error (.unknownBackground id)) := by
  have hsz : ¬((w, h).1 ≤ 0 ∨ (w, h).2 ≤ 0) := by
    simp only [not_or, not_le]
    exact ⟨hw, hh⟩
  by_cases hg : file_backgrounds files ≠ [] ∧ id ∈ (file_backgrounds files).map BackgroundDef.id
  · rcases open_file_cases files id with ⟨herr, hnone⟩ | ⟨p, hp, he, hslug, hok⟩
    · have hnacc : ¬ acceptedId files id := by
        rintro (⟨f, hf, hfe, hfs⟩ | hb)
        · exact hnone f hf ⟨hfe, hfs⟩
        · exact builtin_not_fbId files id hb hg.2
      constructor
      · intro hacc
        exact absurd hacc hnacc
      · intro _
        unfold generate_background
        rw [if_neg hsz, if_pos hg, herr]
    · have hpw := hpos p hp he
      obtain ⟨out, hcov, hcw, hch⟩ := cover_resize_ok lib (convertRGB p.content) w h hw hh
        (by show p.content.w ≠ 0; omega) (by show p.content.h ≠ 0; omega)
      constructor
      · intro _
        refine ⟨out, ?_, hcw, hch⟩
        unfold generate_background
        rw [if_neg hsz, if_pos hg, hok]
        exact hcov
      · intro hnacc
        exact absurd (Or.inl ⟨p, hp, he, hslug⟩) hnacc
  · unfold generate_background
    rw [if_neg hsz, if_neg hg]
    by_cases h1 : id = "studio_neutral"
    · rw [if_pos h1]
      constructor
      · intro _
        exact ⟨_, rfl, rfl, rfl⟩
      · intro hnacc
        exact absurd (Or.inr (by rw [h1]; decide)) hnacc
    · rw [if_neg h1]
      by_cases h2 : id = "outdoor_lot"
      · rw [if_pos h2]
        constructor
        · intro _
          exact ⟨_, rfl, rfl, rfl⟩
        · intro hnacc
          exact absurd (Or.inr (by rw [h2]; decide)) hnacc
      · rw [if_neg h2]
        by_cases h3 : id = "branded_wall"
        · rw [if_pos h3]
          constructor
          · intro _
            exact ⟨_, rfl, rfl, rfl⟩
          · intro hnacc
            exact absurd (Or.inr (by rw [h3]; decide)) hnacc
        · rw [if_neg h3]
          by_cases h4 : id = "gradient_silver"
          · rw [if_pos h4]
            constructor
            · intro _
              exact ⟨_, rfl, rfl, rfl⟩
            · intro hnacc
              exact absurd (Or.inr (by rw [h4]; decide)) hnacc
          · rw [if_neg h4]
            have hnacc : ¬ acceptedId files id := by
              rintro (⟨f, hf, hfe, hfs⟩ | hb)
              · have hmem : id ∈ fbIds files := by
                  rw [← hfs]
                  exact fbIds_of_slug files f hf hfe
                have hne : file_backgrounds files ≠ [] := by
                  intro hnil
                  rw [fbIds, hnil] at hmem
                  exact absurd hmem (List.not_mem_nil id)
                exact hg ⟨hne, hmem⟩
              · have hids : builtinIds =
                    ["studio_neutral", "outdoor_lot", "branded_wall", "gradient_silver"] := by
                  decide
                rw [hids] at hb
                rcases List.mem_cons.1 hb with h | h
                · exact h1 h
                rcases List.mem_cons.1 h with h | h
                · exact h2 h
                rcases List.mem_cons.1 h with h | h
                · exact h3 h
                rcases List.mem_cons.1 h with h | h
                · exact h4 h
                · exact absurd h (List.not_mem_nil id)
            exact ⟨fun hacc => absurd hacc hnacc, fun _ => rfl⟩

lemma tryStep_ok {a : Type} (v : a) (handler : String → WorkerOutcome)
    (next : a → WorkerOutcome) : tryStep (.ok v) handler next = next v := rfl

lemma tryStep_error {a : Type} (e : String) (handler : String → WorkerOutcome)
    (next : a → WorkerOutcome) : tryStep (.error e) handler next = handler e := rfl

lemma worker_shape (env : WorkerEnv) (session : Option Unit) :
    (∃ raw out wh, env.readOriginal = .ok raw ∧ env.removeBg raw = .ok out ∧
      env.writeCutout out = .ok () ∧ env.decodeSize out = .ok wh ∧
      remove_background_to_file env session = ⟨some out, [wh], []⟩) ∨
    (∃ d written, remove_background_to_file env session = ⟨written, [], [d]⟩) := by
  unfold remove_background_to_file
  rcases hs : sessionOf env session with e | u
  · rw [tryStep_error]
    exact Or.inr ⟨workerDetail env e, none, rfl⟩
  · rw [tryStep_ok]
    rcases hro : env.readOriginal with e | raw
    · rw [tryStep_error]
      exact Or.inr ⟨workerDetail env e, none, rfl⟩
    · rw [tryStep_ok]
      rcases hrb : env.removeBg raw with e | out
      · rw [tryStep_error]
        exact Or.inr ⟨workerDetail env e, none, rfl⟩
      · rw [tryStep_ok]
        rcases hed : env.ensureDir with e | u2
        · rw [tryStep_error]
          exact Or.inr ⟨workerDetail env e, none, rfl⟩
        · rw [tryStep_ok]
          rcases hwc : env.writeCutout out with e | u3
          · rw [tryStep_error]
            exact Or.inr ⟨workerDetail env e, none, rfl⟩
          · rw [tryStep_ok]
            rcases hds : env.decodeSize out with e | wh
            · rw [tryStep_error]
              exact Or.inr ⟨workerDetail env e, some out, rfl⟩
            · rw [tryStep_ok]
              exact Or.inl ⟨raw, out, wh, rfl, hrb, hwc, hds, rfl⟩

lemma poll_take (t : ImgStatus) (k : Nat) :
    (([ImgStatus.queued, ImgStatus.processing, t]).take k).getLast? =
      if k = 0 then none
      else if k = 1 then some ImgStatus.queued
      else if k = 2 then some ImgStatus.processing
      else some t := by
  match k with
  | 0 => rfl
  | 1 => rfl
  | 2 => rfl
  | n + 3 =>
    rw [List.take_of_length_le (by simp)]
    rw [if_neg (by omega), if_neg (by omega), if_neg (by omega)]
    rfl

lemma trace_shape (env : WorkerEnv) (session : Option Unit) :
    imageStatusTrace env session = [ImgStatus.queued, ImgStatus.processing, ImgStatus.ready] ∨
    imageStatusTrace env session = [ImgStatus.queued, ImgStatus.processing, ImgStatus.error] := by
  rcases worker_shape env session with ⟨raw, out, wh, _, _, _, _, hr⟩ | ⟨d, written, hr⟩
  · left
    unfold imageStatusTrace
    rw [hr]
    rfl
  · right
    unfold imageStatusTrace
    rw [hr]
    rfl

lemma mul255_zero_right (a : Nat) : mul255 a 0 = 0 := by
  simp [mul255, shiftDiv255]

lemma alphaCompositeAt_origin_px (base ov : Img) (x y : Nat) (hz : (ov.px x y).a = 0) :
    (alphaCompositeAt base ov (0, 0)).px x y = base.px x y := by
  unfold alphaCompositeAt
  simp only [Int.sub_zero]
  split
  · rw [Int.toNat_natCast, Int.toNat_natCast, pixelOver, if_pos hz]
  · rfl

lemma render_composite_scale_congr (lib : Lib) (cutout bg : Img) (paid : Bool) (text : String)
    (p q : RenderParams) (hrot : p.rotate_deg = q.rotate_deg) (hox : p.offset_x = q.offset_x)
    (hoy : p.offset_y = q.offset_y) (hsh : p.shadow = q.shadow)
    (hsnap : p.snap_center = q.snap_center) (hscale : clampScale p.scale = clampScale q.scale) :
    render_composite lib cutout bg p paid text = render_composite lib cutout bg q paid text := by
  unfold render_composite transformedCar renderDest
  rw [hrot, hox, hoy, hsh, hsnap, hscale]

lemma pyInt_of_nonneg (q : ℚ) (h : 0 ≤ q) : pyInt q = Int.floor q := by
  unfold pyInt
  rw [if_neg (not_lt.2 h)]

lemma pyInt_natCast (n : Nat) : pyInt (n : ℚ) = (n : ℤ) := by
  unfold pyInt
  rw [if_neg (not_lt.2 (by positivity)), Int.floor_natCast]

lemma alphaCompositeAt_w (b o : Img) (d : ℤ × ℤ) : (alphaCompositeAt b o d).w = b.w := rfl

lemma alphaCompositeAt_h (b o : Img) (d : ℤ × ℤ) : (alphaCompositeAt b o d).h = b.h := rfl

lemma convertRGB_w (i : Img) : (convertRGB i).w = i.w := rfl

lemma convertRGB_h (i : Img) : (convertRGB i).h = i.h := rfl

lemma apply_soft_shadow_size (lib : Lib) (bg car : Img) (pos : ℤ × ℤ) (op : ℚ) :
    (apply_soft_shadow lib bg car pos op).w = bg.w ∧
    (apply_soft_shadow lib bg car pos op).h = bg.h := by
  unfold apply_soft_shadow
  cases hbb : alphaBBox car with
  | none => exact ⟨rfl, rfl⟩
  | some bb =>
    obtain ⟨x0, y0, x1, y1⟩ := bb
    exact ⟨rfl, rfl⟩

lemma render_composite_size (lib : Lib) (cutout bg : Img) (params : RenderParams) (paid : Bool)
    (text : String) :
    (render_composite lib cutout bg params paid text).w = cutout.w ∧
    (render_composite lib cutout bg params paid text).h = cutout.h := by
  constructor
  · show (alphaCompositeAt _ _ _).w = cutout.w
    rw [alphaCompositeAt_w]
    show (if params.shadow then _ else _ : Img).w = cutout.w
    split
    · rw [(apply_soft_shadow_size lib _ _ _ _).1, convertRGB_w]
      split
      · rename_i hcond
        exact hcond.1
      · rfl
    · rw [convertRGB_w]
      split
      · rename_i hcond
        exact hcond.1
      · rfl
  · show (alphaCompositeAt _ _ _).h = cutout.h
    rw [alphaCompositeAt_h]
    show (if params.shadow then _ else _ : Img).h = cutout.h
    split
    · rw [(apply_soft_shadow_size lib _ _ _ _).2, convertRGB_h]
      split
      · rename_i hcond
        exact hcond.2
      · rfl
    · rw [convertRGB_h]
      split
      · rename_i hcond
        exact hcond.2
      · rfl

lemma transformedCar_199_w :
    (transformedCar trivLib cutout100 snapParams199 true "aucto.ch").w = 199 := by
  unfold transformedCar snapParams199 cutout100 newImg clampScale
  have habs : |(99 / 100 : ℚ)| = 99 / 100 := abs_of_pos (by norm_num)
  norm_num [pyInt, habs, resizeTo]
  rfl

/-- Claim C1, amended.  The generator accepts an id, at any positive target
size and for any directory of decodable images, exactly when the id is the
slug of an eligible file or one of the four built-in ids; every other id
fails with the KeyError that the spec calls UnknownBackgroundError.  The
accepted set therefore differs from the catalog listing when files are
present: built-in ids remain accepted although unlisted, and a suffixed
de-duplicated listing id is rejected because no file slugifies to it. -/
theorem c1_generate_accepts_iff (lib : Lib) (files : List BgFile) (id : String) (w h : ℤ)
    (hw : 0 < w) (hh : 0 < h)
    (hpos : ∀ f ∈ files, isEligible f = true → 0 < f.content.w ∧ 0 < f.content.h) :
    ((∃ img, generate_background lib files id (w, h) = .ok img) ↔ acceptedId files id) ∧
    (¬ acceptedId files id →
      generate_background lib files id (w, h) = .error (.unknownBackground id)) := by
  obtain ⟨hyes, hno⟩ := generate_characterization lib files id w h hw hh hpos
  refine ⟨⟨?_, ?_⟩, hno⟩
  · rintro ⟨img, hok⟩
    by_contra hnacc
    rw [hno hnacc] at hok
    exact Except.noConfusion hok
  · intro hacc
    obtain ⟨img, hok, _, _⟩ := hyes hacc
    exact ⟨img, hok⟩

/-- Claim C1, counterexample to the claim as stated.  With the non-empty
file catalog consisting of wall.jpg, the built-in id gradient_silver is
accepted by the generator even though the catalog listing does not contain
it, so the accepted set is not equal to the listed set. -/
theorem c1_counterexample :
    (generate_background trivLib cexFilesWall "gradient_silver" (10, 10)).isOk = true ∧
    "gradient_silver" ∉ (list_backgrounds cexFilesWall).map BackgroundDef.id :=
  ⟨by decide, by decide⟩

/-- Claim C1, witness: the amended theorem applied to the wall.jpg catalog
and the listed id wall at size 10 by 10. -/
theorem c1_witness :
    ((0 : ℤ) < 10 ∧ (0 : ℤ) < 10 ∧
      (∀ f ∈ cexFilesWall, isEligible f = true → 0 < f.content.w ∧ 0 < f.content.h)) ∧
    (((∃ img, generate_background trivLib cexFilesWall "wall" (10, 10) = .ok img) ↔
      acceptedId cexFilesWall "wall") ∧
    (¬ acceptedId cexFilesWall "wall" →
      generate_background trivLib cexFilesWall "wall" (10, 10) =
        .error (.unknownBackground "wall"))) :=
  ⟨⟨by decide, by decide, by decide⟩,
    c1_generate_accepts_iff trivLib cexFilesWall "wall" 10 10 (by decide) (by decide) (by decide)⟩

/-- Claim C4, amended.  For every id the generator accepts (slug of an
eligible file, or a built-in id) and every positive target size, the result
is a raster of exactly the requested size, including the file-backed
cover-resize path whose final crop box pins the size.  The amendment
narrows the claim from every listed id to every accepted id: a suffixed
de-duplicated listing id is not accepted (see the counterexample). -/
theorem c4_generate_size (lib : Lib) (files : List BgFile) (id : String) (w h : ℤ)
    (hw : 0 < w) (hh : 0 < h)
    (hpos : ∀ f ∈ files, isEligible f = true → 0 < f.content.w ∧ 0 < f.content.h)
    (hacc : acceptedId files id) :
    ∃ img, generate_background lib files id (w, h) = .ok img ∧
      img.w = w.toNat ∧ img.h = h.toNat :=
  (generate_characterization lib files id w h hw hh hpos).1 hacc

/-- Claim C4, counterexample to the claim as stated.  With two files whose
stems both slugify to wall, the catalog lists the de-duplicated id wall-2,
yet the generator raises KeyError for it instead of returning a raster. -/
theorem c4_counterexample :
    "wall-2" ∈ (list_backgrounds cexFilesDup).map BackgroundDef.id ∧
    generate_background trivLib cexFilesDup "wall-2" (10, 10) =
      .error (.unknownBackground "wall-2") :=
  ⟨by decide, rfl⟩

/-- Claim C4, witness: the amended theorem applied to the built-in id
gradient_silver at size 7 by 5 over an empty directory. -/
theorem c4_witness :
    ((0 : ℤ) < 7 ∧ (0 : ℤ) < 5 ∧ acceptedId [] "gradient_silver") ∧
    (∃ img, generate_background trivLib [] "gradient_silver" (7, 5) = .ok img ∧
      img.w = (7 : ℤ).toNat ∧ img.h = (5 : ℤ).toNat) :=
  ⟨⟨by decide, by decide, Or.inr (by decide)⟩,
    c4_generate_size trivLib [] "gradient_silver" 7 5 (by decide) (by decide)
      (by intro f hf; exact absurd hf (List.not_mem_nil f)) (Or.inr (by decide))⟩

/-- Claim C7.  When either requested dimension is non-positive the
generator fails with the ValueError the spec calls InvalidSizeError; the
size guard runs before any catalog lookup, so the result is the same for
every id, known or unknown. -/
theorem c7_invalid_size (lib : Lib) (files : List BgFile) (id id2 : String) (w h : ℤ)
    (hsz : w ≤ 0 ∨ h ≤ 0) :
    generate_background lib files id (w, h) = .error .invalidSize ∧
    generate_background lib files id (w, h) = generate_background lib files id2 (w, h) := by
  have h1 : ((w, h).1 ≤ 0 ∨ (w, h).2 ≤ 0) := hsz
  constructor
  · unfold generate_background
    rw [if_pos h1]
  · unfold generate_background
    rw [if_pos h1, if_pos h1]

/-- Claim C7, witness: width 0 with a known and an unknown id. -/
theorem c7_witness :
    ((0 : ℤ) ≤ 0 ∨ (5 : ℤ) ≤ 0) ∧
    (generate_background trivLib [] "studio_neutral" (0, 5) = .error .invalidSize ∧
      generate_background trivLib [] "studio_neutral" (0, 5) =
        generate_background trivLib [] "no-such-id" (0, 5)) :=
  ⟨by decide, c7_invalid_size trivLib [] "studio_neutral" "no-such-id" 0 5 (by decide)⟩

/-- Claim C9.  Two runs of the generator in process environments that agree
on the directory snapshot and the deterministic library primitives produce
identical results whatever their randomness streams: no procedural recipe
and no file-backed path consults randomness, so the output is a function of
the id and size alone. -/
theorem c9_deterministic (lib : Lib) (files : List BgFile) (rng1 rng2 : Nat → Nat)
    (bg_id : String) (size : ℤ × ℤ) :
    generate_background_env ⟨lib, files, rng1⟩ bg_id size =
      generate_background_env ⟨lib, files, rng2⟩ bg_id size := rfl

/-- Claim C10.  The gradient interpolation divisor max(h - 1, 1) is never
zero, a one-pixel-tall gradient receives exactly the top endpoint colour on
its only scanline, and the generator succeeds for gradient_silver at every
positive size, although the spec formula t = y / (h - 1) is undefined at
h = 1. -/
theorem c10_gradient_guard (top bottom : RGB3) (w x : Nat) (lib : Lib) (wq hq : ℤ)
    (hw : 0 < wq) (hh : 0 < hq) :
    (∀ hgt : Nat, ((max (hgt - 1) 1 : ℕ) : ℚ) ≠ 0) ∧
    (linear_gradient w 1 top bottom).px x 0 = ⟨top.r, top.g, top.b, 255⟩ ∧
    (generate_background lib [] "gradient_silver" (wq, hq)).isOk = true := by
  refine ⟨?_, ?_, ?_⟩
  · intro hgt
    have h1 : max (hgt - 1) 1 ≠ 0 := by omega
    exact Nat.cast_ne_zero.2 h1
  · show gradColor top bottom 1 0 = _
    unfold gradColor
    norm_num [pyInt_natCast]
  · obtain ⟨img, hok, _, _⟩ := (generate_characterization lib [] "gradient_silver" wq hq hw hh
      (by intro f hf; exact absurd hf (List.not_mem_nil f))).1 (Or.inr (by decide))
    rw [hok]
    rfl

/-- Claim C10, witness: a width-4 one-pixel-tall silver gradient and the
generator at size 3 by 1. -/
theorem c10_witness :
    ((0 : ℤ) < 3 ∧ (0 : ℤ) < 1) ∧
    ((∀ hgt : Nat, ((max (hgt - 1) 1 : ℕ) : ℚ) ≠ 0) ∧
      (linear_gradient 4 1 ⟨250, 250, 252⟩ ⟨196, 198, 202⟩).px 2 0 = ⟨250, 250, 252, 255⟩ ∧
      (generate_background trivLib [] "gradient_silver" (3, 1)).isOk = true) :=
  ⟨⟨by decide, by decide⟩,
    c10_gradient_guard ⟨250, 250, 252⟩ ⟨196, 198, 202⟩ 4 2 trivLib 3 1 (by decide) (by decide)⟩

/-- Claim C2, amended.  With snap_center set, the offsets are forced to
zero and the composite canvas is exactly the cutout native size whatever
the supplied background measures; the final top-left is int((W - cw) / 2),
int((H - ch) / 2) where int is Python truncation toward zero, not the
floor the spec states.  The two agree whenever the transformed layer fits
inside the canvas; the counterexample below separates them. -/
theorem c2_snap_center (lib : Lib) (cutout bg : Img) (params : RenderParams) (paid : Bool)
    (text : String) (hsnap : params.snap_center = true) :
    (render_composite lib cutout bg params paid text).w = cutout.w ∧
    (render_composite lib cutout bg params paid text).h = cutout.h ∧
    renderDest cutout (transformedCar lib cutout params paid text) params =
      (pyInt (((cutout.w : ℚ) - ((transformedCar lib cutout params paid text).w : ℚ)) / 2),
       pyInt (((cutout.h : ℚ) - ((transformedCar lib cutout params paid text).h : ℚ)) / 2)) ∧
    ((transformedCar lib cutout params paid text).w ≤ cutout.w →
      (renderDest cutout (transformedCar lib cutout params paid text) params).1 =
        Int.floor (((cutout.w : ℚ) - ((transformedCar lib cutout params paid text).w : ℚ)) / 2)) ∧
    ((transformedCar lib cutout params paid text).h ≤ cutout.h →
      (renderDest cutout (transformedCar lib cutout params paid text) params).2 =
        Int.floor (((cutout.h : ℚ) - ((transformedCar lib cutout params paid text).h : ℚ)) / 2)) := by
  have hdest : renderDest cutout (transformedCar lib cutout params paid text) params =
      (pyInt (((cutout.w : ℚ) - ((transformedCar lib cutout params paid text).w : ℚ)) / 2),
       pyInt (((cutout.h : ℚ) - ((transformedCar lib cutout params paid text).h : ℚ)) / 2)) := by
    unfold renderDest
    rw [hsnap]
    simp
  refine ⟨(render_composite_size lib cutout bg params paid text).1,
    (render_composite_size lib cutout bg params paid text).2, hdest, ?_, ?_⟩
  · intro hcw
    rw [hdest]
    exact pyInt_of_nonneg _ (div_nonneg (sub_nonneg.2 (by exact_mod_cast hcw)) (by norm_num))
  · intro hch
    rw [hdest]
    exact pyInt_of_nonneg _ (div_nonneg (sub_nonneg.2 (by exact_mod_cast hch)) (by norm_num))

/-- Claim C2, counterexample to the floor wording of the claim.  A 100 by
100 cutout scaled by 1.99 under snap_center becomes a 199-pixel layer; the
code places its left edge at int(-49.5) = -49 while the floor the claim
states is -50. -/
theorem c2_counterexample :
    (renderDest cutout100 (transformedCar trivLib cutout100 snapParams199 true "aucto.ch")
        snapParams199).1 = -49 ∧
    Int.floor (((cutout100.w : ℚ) -
        ((transformedCar trivLib cutout100 snapParams199 true "aucto.ch").w : ℚ)) / 2) = -50 := by
  constructor
  · unfold renderDest
    rw [transformedCar_199_w]
    show pyInt (((100 : ℚ) - (199 : ℚ)) / 2 + 0) = -49
    unfold pyInt
    rw [if_pos (by norm_num)]
    norm_num
  · rw [transformedCar_199_w]
    show Int.floor (((100 : ℚ) - (199 : ℚ)) / 2) = -50
    norm_num

/-- Claim C2, witness: the amended theorem applied to the 100 by 100
cutout, a 50 by 50 background and the snap-to-center parameters. -/
theorem c2_witness :
    snapParams199.snap_center = true ∧
    ((render_composite trivLib cutout100 bg50 snapParams199 true "aucto.ch").w = cutout100.w ∧
    (render_composite trivLib cutout100 bg50 snapParams199 true "aucto.ch").h = cutout100.h ∧
    renderDest cutout100 (transformedCar trivLib cutout100 snapParams199 true "aucto.ch")
        snapParams199 =
      (pyInt (((cutout100.w : ℚ) -
          ((transformedCar trivLib cutout100 snapParams199 true "aucto.ch").w : ℚ)) / 2),
       pyInt (((cutout100.h : ℚ) -
          ((transformedCar trivLib cutout100 snapParams199 true "aucto.ch").h : ℚ)) / 2)) ∧
    ((transformedCar trivLib cutout100 snapParams199 true "aucto.ch").w ≤ cutout100.w →
      (renderDest cutout100 (transformedCar trivLib cutout100 snapParams199 true "aucto.ch")
          snapParams199).1 =
        Int.floor (((cutout100.w : ℚ) -
          ((transformedCar trivLib cutout100 snapParams199 true "aucto.ch").w : ℚ)) / 2)) ∧
    ((transformedCar trivLib cutout100 snapParams199 true "aucto.ch").h ≤ cutout100.h →
      (renderDest cutout100 (transformedCar trivLib cutout100 snapParams199 true "aucto.ch")
          snapParams199).2 =
        Int.floor (((cutout100.h : ℚ) -
          ((transformedCar trivLib cutout100 snapParams199 true "aucto.ch").h : ℚ)) / 2))) :=
  ⟨rfl, c2_snap_center trivLib cutout100 bg50 snapParams199 true "aucto.ch" rfl⟩

/-- Claim C3.  For a free (unpaid) render the watermark is clipped to the
cutout silhouette: wherever the cutout alpha is zero, the watermarked
subject layer is pixel-identical to the unwatermarked cutout, because the
watermark alpha is multiplied with the cutout alpha before compositing and
the Pillow source-over shortcut copies the destination when the source
alpha is zero. -/
theorem c3_watermark_clipped (lib : Lib) (car : Img) (angle : ℚ) (text : String)
    (x y : Nat) (ha : (car.px x y).a = 0) :
    (apply_watermark_on_car lib car angle text).px x y = car.px x y := by
  unfold apply_watermark_on_car
  cases alphaBBox car with
  | none => rfl
  | some bb =>
    apply alphaCompositeAt_origin_px
    simp only [putAlpha]
    rw [ha, mul255_zero_right]

/-- Claim C3, witness: the transparent pixel of a 2 by 1 cutout is
unchanged by the watermark pass. -/
theorem c3_witness :
    (carT.px 1 0).a = 0 ∧
    (apply_watermark_on_car trivLib carT 0 "aucto.ch").px 1 0 = carT.px 1 0 :=
  ⟨by decide, c3_watermark_clipped trivLib carT 0 "aucto.ch" 1 0 (by decide)⟩

/-- Claim C8.  The renderer clamps the requested scale to the interval from
0.5 to 2.0: with every other input held fixed, requesting scale 5.0
produces the same composite as requesting 2.0, and requesting 0.01 the
same composite as requesting 0.5. -/
theorem c8_scale_clamped (lib : Lib) (cutout bg : Img) (params : RenderParams) (paid : Bool)
    (text : String) :
    render_composite lib cutout bg { params with scale := 5 } paid text =
      render_composite lib cutout bg { params with scale := 2 } paid text ∧
    render_composite lib cutout bg { params with scale := 1 / 100 } paid text =
      render_composite lib cutout bg { params with scale := 1 / 2 } paid text := by
  constructor
  · exact render_composite_scale_congr lib cutout bg paid text _ _ rfl rfl rfl rfl rfl
      (by norm_num [clampScale])
  · exact render_composite_scale_congr lib cutout bg paid text _ _ rfl rfl rfl rfl rfl
      (by norm_num [clampScale])

/-- Claim C5.  Within one image lifecycle the serialized status writes are
queued, processing, then exactly one terminal write produced by the single
worker callback; polling after any prefix of the write sequence never sees
the rank go backwards, and once a poll returns a terminal status every
later poll returns the same status, so processing is never shown again. -/
theorem c5_lifecycle (env : WorkerEnv) (session : Option Unit) (k1 k2 : Nat) (hk : k1 ≤ k2) :
    ((imageStatusTrace env session).filter isTerminal).length = 1 ∧
    (∀ s1 s2, pollStatus env session k1 = some s1 → pollStatus env session k2 = some s2 →
      statusRank s1 ≤ statusRank s2 ∧ (isTerminal s1 = true → s2 = s1)) := by
  rcases trace_shape env session with ht | ht <;>
    · constructor
      · rw [ht]; decide
      · intro s1 s2 h1 h2
        unfold pollStatus at h1 h2
        rw [ht, poll_take] at h1 h2
        by_cases e1 : k1 = 0
        · rw [if_pos e1] at h1; exact absurd h1 (by simp)
        · rw [if_neg e1] at h1
          by_cases e2 : k2 = 0
          · omega
          · rw [if_neg e2] at h2
            by_cases e3 : k1 = 1
            · rw [if_pos e3] at h1
              rcases Option.some.inj h1 with rfl
              by_cases e4 : k2 = 1
              · rw [if_pos e4] at h2
                rcases Option.some.inj h2 with rfl
                exact ⟨le_refl _, by decide⟩
              · rw [if_neg e4] at h2
                by_cases e5 : k2 = 2
                · rw [if_pos e5] at h2
                  rcases Option.some.inj h2 with rfl
                  exact ⟨by decide, by decide⟩
                · rw [if_neg e5] at h2
                  rcases Option.some.inj h2 with rfl
                  exact ⟨by decide, by decide⟩
            · rw [if_neg e3] at h1
              by_cases e6 : k1 = 2
              · rw [if_pos e6] at h1
                rcases Option.some.inj h1 with rfl
                by_cases e4 : k2 = 1
                · omega
                · rw [if_neg e4] at h2
                  by_cases e5 : k2 = 2
                  · rw [if_pos e5] at h2
                    rcases Option.some.inj h2 with rfl
                    exact ⟨le_refl _, by decide⟩
                  · rw [if_neg e5] at h2
                    rcases Option.some.inj h2 with rfl
                    exact ⟨by decide, by decide⟩
              · rw [if_neg e6] at h1
                rcases Option.some.inj h1 with rfl
                by_cases e4 : k2 = 1
                · omega
                · rw [if_neg e4] at h2
                  by_cases e5 : k2 = 2
                  · omega
                  · rw [if_neg e5] at h2
                    rcases Option.some.inj h2 with rfl
                    exact ⟨le_refl _, fun _ => rfl⟩

/-- Claim C5, witness: the lifecycle theorem applied to the all-success
worker environment, polling after two and after three committed writes. -/
theorem c5_witness :
    2 ≤ 3 ∧
    (((imageStatusTrace envOK none).filter isTerminal).length = 1 ∧
      (∀ s1 s2, pollStatus envOK none 2 = some s1 → pollStatus envOK none 3 = some s2 →
        statusRank s1 ≤ statusRank s2 ∧ (isTerminal s1 = true → s2 = s1))) :=
  ⟨by decide, c5_lifecycle envOK none 2 3 (by decide)⟩

/-- Claim C6.  One call of the worker boundary invokes exactly one callback
in total: on the all-success path the success callback once, with the
decoded dimensions of the bytes durably written to the cutout path; on any
failing step the failure callback once and the success callback never.
The embedding is a total function, which is the never-raises guarantee
(the callbacks themselves are recorded, not run, per the claim assumption
that they do not raise). -/
theorem c6_worker_boundary (env : WorkerEnv) (session : Option Unit) :
    ((remove_background_to_file env session).successCalls.length +
      (remove_background_to_file env session).errorCalls.length = 1) ∧
    (∀ wh ∈ (remove_background_to_file env session).successCalls,
      ∃ raw out, env.readOriginal = .ok raw ∧ env.removeBg raw = .ok out ∧
        env.writeCutout out = .ok () ∧ env.decodeSize out = .ok wh ∧
        (remove_background_to_file env session).written = some out) ∧
    ((remove_background_to_file env session).errorCalls ≠ [] →
      (remove_background_to_file env session).successCalls = []) := by
  rcases worker_shape env session with ⟨raw, out, wh, h1, h2, h3, h4, hr⟩ | ⟨d, written, hr⟩
  · rw [hr]
    refine ⟨rfl, ?_, ?_⟩
    · intro wh2 hwh2
      rcases List.mem_singleton.1 hwh2 with rfl
      exact ⟨raw, out, h1, h2, h3, h4, rfl⟩
    · intro hne
      exact absurd rfl hne
  · rw [hr]
    refine ⟨rfl, ?_, fun _ => rfl⟩
    intro wh2 hwh2
    exact absurd hwh2 (List.not_mem_nil wh2)

/-- Claim C6, witness: the boundary theorem applied to the all-success
worker environment. -/
theorem c6_witness :
    ((remove_background_to_file envOK none).successCalls.length +
      (remove_background_to_file envOK none).errorCalls.length = 1) ∧
    (∀ wh ∈ (remove_background_to_file envOK none).successCalls,
      ∃ raw out, envOK.readOriginal = .ok raw ∧ envOK.removeBg raw = .ok out ∧
        envOK.writeCutout out = .ok () ∧ envOK.decodeSize out = .ok wh ∧
        (remove_background_to_file envOK none).written = some out) ∧
    ((remove_background_to_file envOK none).errorCalls ≠ [] →
      (remove_background_to_file envOK none).successCalls = []) :=
  c6_worker_boundary envOK none
